import Mathlib

/-!
# Verification of osmoutil-go resilience primitives

Shallow embedding of the `retry`, `circuitbreaker`, `tx` (nonce tracker) and
`async` (async request processor) packages of the `osmosis-labs/osmoutil-go`
repository, together with theorems settling the specification claims.

Modelling conventions:
* Go `time.Duration` and `time.Time` values are nanosecond counts (`Nat` or
  `Int`); the current wall-clock instant `time.Now()` is passed explicitly as a
  `now` parameter wherever the source reads it.
* Go `error` values are an inductive `GoError`; a Go `error` variable (which
  may be `nil`) is `Option GoError`.
* Go strings are `List Char`; `strings.ToLower` maps `Char.toLower`,
  `strings.Contains` is infix containment.
* The nondeterminism of a Go `select` with several ready channels is an
  explicit oracle (`Branch` schedule / boolean choice) parameter.
* A run-time panic (nil-pointer dereference) is the `none` case of an
  `Option`-shaped result (`PanicOr`).
-/

namespace Osmoutil

/-- Go strings, modelled as lists of characters. -/
abbrev GoStr := List Char

/-- `strings.ToLower`, character by character. -/
def goToLower (s : GoStr) : GoStr := s.map Char.toLower

/-- `strings.Contains s sub`: `sub` occurs as a contiguous substring of `s`. -/
def goContains (s sub : GoStr) : Bool := decide (sub <:+: s)

/-- Go `error` values that appear in the embedded packages.

* `opError msg` — an error produced by a caller-supplied operation/fetch
  function, identified by its `Error()` string.
* `contextCanceled` / `deadlineExceeded` — the two values of `ctx.Err()`.
* `timedOutAfter d inner` — `fmt.Errorf("operation timed out after %v: %w", d, inner)`
  from `retry.RetryWithBackoff` (the `%v` renders the duration `d`).
* `throttled since interval` — the `fmt.Errorf("failed to force refetch time
  since (%s), force refetch interval (%s)", …)` error of
  `NonceTracker.ForceRefetch`, carrying the two formatted durations.
* `circuitOpen` — `errors.New("circuit breaker is open")`. -/
inductive GoError where
  | opError (msg : GoStr)
  | contextCanceled
  | deadlineExceeded
  | timedOutAfter (d : Nat) (inner : GoError)
  | throttled (since interval : Nat)
  | circuitOpen
deriving DecidableEq, Repr

/-- The `Error()` string of a `GoError`.  Durations below one microsecond are
rendered by Go's `%v`/`%s` as `<digits>ns`, which is what `Nat.toDigits`
followed by `"ns"` produces for the nanosecond counts used here. -/
def GoError.errorString : GoError → GoStr
  | .opError msg => msg
  | .contextCanceled => ("context canceled").toList
  | .deadlineExceeded => ("context deadline exceeded").toList
  | .timedOutAfter d inner =>
      ("operation timed out after ").toList ++ Nat.toDigits 10 d
        ++ ("ns: ").toList ++ inner.errorString
  | .throttled since interval =>
      ("failed to force refetch time since (").toList ++ Nat.toDigits 10 since
        ++ ("ns), force refetch interval (").toList ++ Nat.toDigits 10 interval
        ++ ("ns)").toList
  | .circuitOpen => ("circuit breaker is open").toList

/-! ## Package `retry` (`retry/retry.go`) -/

/-- `retry.RetryConfig`: durations in nanoseconds. -/
structure RetryConfig where
  MaxDuration : Nat
  InitialInterval : Nat
  MaxInterval : Nat
  IntervalIncrement : Nat
deriving DecidableEq, Repr

/-- `retry.isNonRetriable`: `err == nil || len(patterns) == 0` gives `false`;
otherwise each pattern, lowered, is tested as a substring of the lowered
`err.Error()` string. -/
def isNonRetriable (err : Option GoError) (nonRetriablePatterns : List GoStr) : Bool :=
  match err with
  | none => false
  | some e =>
    if nonRetriablePatterns.length = 0 then false
    else
      let errStr := goToLower e.errorString
      nonRetriablePatterns.any fun pattern => goContains errStr (goToLower pattern)

/-- Which branch of the `select` in `RetryWithBackoff` fires after a failed,
retriable attempt: the context's `Done` channel, the overall `MaxDuration`
timer, or the per-iteration backoff sleep (`time.After interval`). -/
inductive Branch where
  | ctxDone
  | timerC
  | sleep
deriving DecidableEq, Repr

/-- The body of `retry.RetryWithBackoff`'s `for` loop.

* `operation i` is the outcome (`none` = success) of the `i`-th invocation of
  the caller's operation;
* `schedule i` tells which ready `select` branch fires after a failed
  retriable attempt `i` (the oracle for the race between cancellation, the
  overall timer and the backoff sleep);
* `fuel` bounds the number of iterations modelled; the loop itself is
  unbounded, and a result of `none` means the run is still iterating after
  `fuel` attempts.

Returns the Go return value (`Option GoError`, `none` = `nil`) paired with the
number of times `operation` was invoked. -/
def retryLoop (cfg : RetryConfig) (operation : Nat → Option GoError)
    (nonRetriablePatterns : List GoStr) (schedule : Nat → Branch) :
    Nat → Nat → Nat → Option (Option GoError) × Nat
  | 0, _, _ => (none, 0)
  | fuel + 1, i, interval =>
    match operation i with
    | none => (some none, 1)
    | some err =>
      if isNonRetriable (some err) nonRetriablePatterns then
        (some (some err), 1)
      else
        match schedule i with
        | .ctxDone => (some (some .contextCanceled), 1)
        | .timerC => (some (some (.timedOutAfter cfg.MaxDuration err)), 1)
        | .sleep =>
          let r := retryLoop cfg operation nonRetriablePatterns schedule fuel (i + 1)
            (min (interval + cfg.IntervalIncrement) cfg.MaxInterval)
          (r.1, r.2 + 1)

/-- `retry.RetryWithBackoff`, modelled over the attempt outcomes and the
`select` schedule: starts the loop at attempt `0` with
`interval = cfg.InitialInterval`. -/
def retryWithBackoff (fuel : Nat) (cfg : RetryConfig) (operation : Nat → Option GoError)
    (nonRetriablePatterns : List GoStr) (schedule : Nat → Branch) :
    Option (Option GoError) × Nat :=
  retryLoop cfg operation nonRetriablePatterns schedule fuel 0 cfg.InitialInterval

/-! ## Package `circuitbreaker` (`circuitbreaker/circuitbreaker.go`) -/

/-- `circuitbreaker.State`. -/
inductive State where
  | closed
  | halfOpen
  | open_
deriving DecidableEq, Repr

/-- The mutable fields of `circuitbreaker.circuitBreaker` (the mutex and the
two callbacks are omitted: the model is the single-threaded interleaving of
lock-protected sections, and the callbacks do not affect breaker state).
Counts are `Int` (Go `int`); times and durations are `Int` nanoseconds, with
the Go zero `time.Time` modelled as instant `0`. -/
structure CircuitBreaker where
  failureThreshold : Int
  resetTimeout : Int
  currentState : State
  failureCount : Int
  lastFailureTime : Int
  successCount : Int
deriving DecidableEq, Repr

/-- `circuitbreaker.New`: non-positive threshold/timeout are replaced by the
defaults (5 and 60s = 6*10^10 ns); the breaker starts `Closed` with zeroed
counters and the zero `lastFailureTime`. -/
def cbNew (failureThreshold resetTimeout : Int) : CircuitBreaker :=
  { failureThreshold := if failureThreshold ≤ 0 then 5 else failureThreshold
    resetTimeout := if resetTimeout ≤ 0 then 60 * 1000000000 else resetTimeout
    currentState := .closed
    failureCount := 0
    lastFailureTime := 0
    successCount := 0 }

/-- `circuitBreaker.toState`: a self-transition is a no-op; otherwise the
state changes and both counters reset (the `onStateChange` callback fires
exactly in the second case). -/
def toState (cb : CircuitBreaker) (newState : State) : CircuitBreaker :=
  if cb.currentState = newState then cb
  else { cb with currentState := newState, failureCount := 0, successCount := 0 }

/-- `circuitBreaker.toHalfOpen`. -/
def toHalfOpen (cb : CircuitBreaker) : CircuitBreaker :=
  toState cb .halfOpen

/-- `circuitBreaker.allowRequest` at instant `now`: returns the admission
decision together with the (possibly `toHalfOpen`-updated) breaker. -/
def allowRequest (cb : CircuitBreaker) (now : Int) : Bool × CircuitBreaker :=
  match cb.currentState with
  | .closed => (true, cb)
  | .halfOpen => (true, cb)
  | .open_ =>
    if now - cb.lastFailureTime > cb.resetTimeout then (true, toHalfOpen cb)
    else (false, cb)

/-- `circuitBreaker.onSuccess`. -/
def onSuccess (cb : CircuitBreaker) : CircuitBreaker :=
  match cb.currentState with
  | .halfOpen =>
    let cb := { cb with successCount := cb.successCount + 1 }
    if cb.successCount ≥ 2 then toState cb .closed else cb
  | .closed => { cb with failureCount := 0 }
  | .open_ => cb

/-- `circuitBreaker.onFailure` at instant `now` (the `onError` callback is
state-irrelevant and omitted). -/
def onFailure (cb : CircuitBreaker) (now : Int) : CircuitBreaker :=
  let cb := { cb with failureCount := cb.failureCount + 1, lastFailureTime := now }
  if cb.currentState = .closed ∧ cb.failureCount ≥ cb.failureThreshold then
    toState cb .open_
  else if cb.currentState = .halfOpen then
    toState cb .open_
  else cb

/-- Outcome of one `circuitBreaker.Execute` call: the returned error
(`some .circuitOpen` on rejection, the operation's own result otherwise) and
whether the operation was invoked. -/
structure ExecOutcome where
  returned : Option GoError
  invoked : Bool
deriving DecidableEq, Repr

/-- `circuitBreaker.Execute` at instant `now`; `opResult` is what the
operation would return if invoked (`none` = success). -/
def execute (cb : CircuitBreaker) (now : Int) (opResult : Option GoError) :
    ExecOutcome × CircuitBreaker :=
  let a := allowRequest cb now
  if !a.1 then ({ returned := some .circuitOpen, invoked := false }, a.2)
  else
    match opResult with
    | none => ({ returned := none, invoked := true }, onSuccess a.2)
    | some err => ({ returned := some err, invoked := true }, onFailure a.2 now)

/-- A sequence of `Execute` calls: call `k` happens at instant `times k` with
operation result `results k`; returns the breaker after the first `n` calls. -/
def executeSeq (cb : CircuitBreaker) (times : Nat → Int)
    (results : Nat → Option GoError) : Nat → CircuitBreaker
  | 0 => cb
  | n + 1 => (execute (executeSeq cb times results n) (times n) (results n)).2

/-! ## Package `tx` (`tx/nonce_tracker.go`) -/

/-- `tx.NonceResponse`: both fields are Go `uint64`. -/
structure NonceResponse where
  Nonce : Nat
  Accnum : Nat
deriving DecidableEq, Repr

/-- The state of a `tx.NonceTracker` (mutex, cancel channel and the fetch
function reference omitted; fetch outcomes are passed explicitly to
`forceRefetch`).  Times and durations are `Nat` nanoseconds; the Go zero
`time.Time` the tracker starts with is instant `0`. -/
structure NonceTracker where
  nonceData : NonceResponse
  forceRefetchInterval : Nat
  refetchTimeout : Nat
  isFirstFetch : Bool
  lastRefetch : Nat
deriving DecidableEq, Repr

/-- `tx.NewNonceTracker`: zero-valued record, `isFirstFetch = true`, zero
`lastRefetch`. -/
def newNonceTracker (forceRefetchInterval refetchTimeout : Nat) : NonceTracker :=
  { nonceData := { Nonce := 0, Accnum := 0 }
    forceRefetchInterval := forceRefetchInterval
    refetchTimeout := refetchTimeout
    isFirstFetch := true
    lastRefetch := 0 }

/-- `NonceTracker.GetLastRefetchTime`. -/
def getLastRefetchTime (n : NonceTracker) : Nat := n.lastRefetch

/-- `NonceTracker.IncrementAndGet`: on any call after the first the stored
`uint64` nonce is incremented (wrapping at `2^64`) before being returned; the
very first call returns the stored record unchanged and clears the flag. -/
def incrementAndGet (n : NonceTracker) : NonceResponse × NonceTracker :=
  if !n.isFirstFetch then
    let nd := { n.nonceData with Nonce := (n.nonceData.Nonce + 1) % 2 ^ 64 }
    (nd, { n with nonceData := nd })
  else
    (n.nonceData, { n with isFirstFetch := false })

/-- `IncrementAndGet` iterated: the result of the `k`-th call (0-based) after
state `n`, together with the state after it. -/
def incrementAndGetN (n : NonceTracker) : Nat → NonceResponse × NonceTracker
  | 0 => incrementAndGet n
  | k + 1 => incrementAndGetN (incrementAndGet n).2 k

/-- How the race inside `refetchAndUpdateNonce` resolves: the
timeout/cancellation context fires first, or the spawned fetch completes
first with an error or with a record. -/
inductive FetchOutcome where
  | ctxDone (ctxErr : GoError)
  | fetchErr (e : GoError)
  | fetched (r : NonceResponse)
deriving DecidableEq, Repr

/-- `NonceTracker.refetchAndUpdateNonce` at instant `now` with the given race
outcome: every error path returns the zero `NonceResponse` and leaves the
tracker untouched; success stores the fetched record and stamps
`lastRefetch = now`. -/
def refetchAndUpdateNonce (n : NonceTracker) (now : Nat) (outcome : FetchOutcome) :
    (NonceResponse × Option GoError) × NonceTracker :=
  match outcome with
  | .ctxDone ctxErr => (({ Nonce := 0, Accnum := 0 }, some ctxErr), n)
  | .fetchErr e => (({ Nonce := 0, Accnum := 0 }, some e), n)
  | .fetched r =>
    let n := { n with nonceData := r, lastRefetch := now }
    ((n.nonceData, none), n)

/-- `NonceTracker.ForceRefetch` at instant `now`: throttled (with the elapsed
time and the configured interval in the error) unless strictly more than
`forceRefetchInterval` has elapsed since `lastRefetch`. -/
def forceRefetch (n : NonceTracker) (now : Nat) (outcome : FetchOutcome) :
    (NonceResponse × Option GoError) × NonceTracker :=
  let timeSince := now - n.lastRefetch
  if timeSince > n.forceRefetchInterval then
    refetchAndUpdateNonce n now outcome
  else
    (({ Nonce := 0, Accnum := 0 },
      some (.throttled timeSince n.forceRefetchInterval)), n)

/-! ## Package `async` (`async/async_request_processor.go`) -/

/-- `async.Request` (the creation timestamp is irrelevant to processing and
omitted). -/
structure Request (T : Type) where
  ID : GoStr
  Data : T
deriving DecidableEq, Repr

/-- `async.Response` (the measured wall-clock `Duration` is omitted). -/
structure Response (R : Type) where
  RequestID : GoStr
  Data : R
  Error : Option GoError
deriving DecidableEq, Repr

/-- A value of a computation that may instead end in a Go run-time panic. -/
inductive PanicOr (α : Type) where
  | panicked (msg : GoStr)
  | ok (a : α)
deriving DecidableEq, Repr

/-- Dereferencing a Go pointer: `nil` panics. -/
def goDeref {α : Type} : Option α → PanicOr α
  | none => .panicked ("runtime error: invalid memory address or nil pointer dereference").toList
  | some a => .ok a

/-- The per-`AsyncRequestProcessor` data the worker consults while processing
one request: the (possibly nil) `retryConfig` pointer and the caller's
processor.  `processFn req` is what `w.processor.Process(reqCtx, req)`
returns. -/
structure AsyncWorker (T R : Type) where
  retryConfig : Option RetryConfig
  processFn : Request T → R × Option GoError

/-- `AsyncRequestProcessor.process`: builds the per-request context via
`context.WithTimeout(w.ctx, w.retryConfig.MaxDuration)` — reading
`w.retryConfig.MaxDuration` dereferences the `retryConfig` pointer before the
processor is ever invoked — then calls the processor.  The returned `Nat`
counts invocations of the caller's processing function. -/
def workerProcess {T R : Type} (w : AsyncWorker T R) (req : Request T) :
    PanicOr (R × Option GoError × Nat) :=
  match goDeref w.retryConfig with
  | .panicked msg => .panicked msg
  | .ok _cfg =>
    let (responseData, err) := w.processFn req
    .ok (responseData, err, 1)

/-- The no-retry path of `AsyncRequestProcessor.processRequest`: when
`w.retryConfig == nil` the request is handed directly to `w.process`. -/
def processRequestNoRetry {T R : Type} (w : AsyncWorker T R) (req : Request T) :
    PanicOr (R × Option GoError × Nat) :=
  match w.retryConfig with
  | none => workerProcess w req
  | some _ => workerProcess w req

/-- State of the queue machinery of one `AsyncRequestProcessor`: the bounded
input channel, the (equally bounded) output channel, the capacity both were
created with, the cancellation flag of the worker context, and a ghost log of
the IDs handed to `processRequest`, in order. -/
structure ProcState (T R : Type) where
  requestChan : List (Request T)
  responseChan : List (Response R)
  bufferSize : Nat
  ctxDone : Bool
  processedLog : List GoStr

/-- `AsyncRequestProcessor.NewAsyncRequstProcessor`'s queue state: empty
channels of capacity `bufferSize`, live context. -/
def newProcState (T R : Type) (bufferSize : Nat) : ProcState T R :=
  { requestChan := [], responseChan := [], bufferSize := bufferSize
    ctxDone := false, processedLog := [] }

/-- `AsyncRequestProcessor.Submit`: rejected when the context is done or the
buffered channel is full, accepted (enqueued) otherwise. -/
def submit {T R : Type} (st : ProcState T R) (req : Request T) :
    Bool × ProcState T R :=
  if st.ctxDone then (false, st)
  else if st.requestChan.length < st.bufferSize then
    (true, { st with requestChan := st.requestChan ++ [req] })
  else (false, st)

/-- Submitting a list of requests in order, collecting the acceptance flags. -/
def submitAll {T R : Type} (st : ProcState T R) :
    List (Request T) → List Bool × ProcState T R
  | [] => ([], st)
  | req :: rest =>
    let (accepted, st1) := submit st req
    let (flags, st2) := submitAll st1 rest
    (accepted :: flags, st2)

/-- One `processRequest` call on the queue state (the caller has already
dequeued `req`): the item is processed (appended to the ghost log), and the
final `select` either enqueues the response or — when the context is done and
the oracle `sendChoice` picks the `<-w.ctx.Done()` branch — discards it.
When the context is live the send blocks until there is room, so with room
available it always enqueues. -/
def processRequestStep {T R : Type} (pf : Request T → R × Option GoError)
    (sendChoice : Bool) (req : Request T) (st : ProcState T R) : ProcState T R :=
  let (d, e) := pf req
  let resp : Response R := { RequestID := req.ID, Data := d, Error := e }
  let st := { st with processedLog := st.processedLog ++ [req.ID] }
  if st.ctxDone then
    if sendChoice ∧ st.responseChan.length < st.bufferSize then
      { st with responseChan := st.responseChan ++ [resp] }
    else st
  else
    { st with responseChan := st.responseChan ++ [resp] }

/-- `processRequestStep` never touches the input channel. -/
theorem processRequestStep_requestChan {T R : Type}
    (pf : Request T → R × Option GoError) (c : Bool) (req : Request T)
    (st : ProcState T R) :
    (processRequestStep pf c req st).requestChan = st.requestChan := by
  simp only [processRequestStep]
  split <;> [skip; rfl]
  split <;> rfl

/-- The drain loop of `processLoop` after `<-w.ctx.Done()`: keep receiving
from `requestChan` and processing until the `default` branch (empty channel)
returns.  `choices` resolves, per processed item, the send-vs-done `select`
inside `processRequest`. -/
def drainLoop {T R : Type} (pf : Request T → R × Option GoError) :
    List Bool → ProcState T R → ProcState T R
  | choices, st =>
    match _h : st.requestChan with
    | [] => st
    | req :: rest =>
      drainLoop pf choices.tail
        (processRequestStep pf (choices.headD true) req { st with requestChan := rest })
  termination_by _ st => st.requestChan.length
  decreasing_by
    simp only [processRequestStep_requestChan, _h, List.length_cons]
    omega

/-- `Stop` followed by the worker's shutdown path: cancel the context, then
the worker takes the `<-w.ctx.Done()` branch of `processLoop` and drains.
(Interleavings in which the worker processes some items through the ordinary
branch before observing cancellation run the same `processRequest` body on
the same items in the same order, so they are covered by varying `choices`.) -/
def stopAndDrain {T R : Type} (pf : Request T → R × Option GoError)
    (choices : List Bool) (st : ProcState T R) : ProcState T R :=
  drainLoop pf choices { st with ctxDone := true }

/-- The responses that survive the shutdown `select` of `processRequest`:
those of the requests whose corresponding entry of `choices` (padded with
`true`) resolves the race in favour of the send branch, in processing
order. -/
def respForChosen {T R : Type} (pf : Request T → R × Option GoError) :
    List (Request T) → List Bool → List (Response R)
  | [], _ => []
  | req :: rest, choices =>
    (if choices.headD true then
      [{ RequestID := req.ID, Data := (pf req).1, Error := (pf req).2 }]
    else []) ++ respForChosen pf rest choices.tail

/-! ## Theorems: nonce tracker claims -/

/-- C9: whenever `ForceRefetch` returns a non-nil error — throttled, timed
out/cancelled, or because the fetch function failed — the record it returns
is the zero-value `NonceResponse`, never the currently stored record. -/
theorem forceRefetch_error_returns_zero_record (n : NonceTracker) (now : Nat)
    (outcome : FetchOutcome)
    (herr : (forceRefetch n now outcome).1.2 ≠ none) :
    (forceRefetch n now outcome).1.1 = { Nonce := 0, Accnum := 0 } := by
  by_cases hgt : now - n.lastRefetch > n.forceRefetchInterval
  · cases outcome with
    | ctxDone e => simp [forceRefetch, refetchAndUpdateNonce, hgt]
    | fetchErr e => simp [forceRefetch, refetchAndUpdateNonce, hgt]
    | fetched r =>
      exact absurd (by simp [forceRefetch, refetchAndUpdateNonce, hgt]) herr
  · simp [forceRefetch, hgt]

/-- Witness for C9 at a concrete tracker whose stored record is nonzero and
whose fetch fails. -/
theorem forceRefetch_error_returns_zero_record_witness :
    (forceRefetch
      { nonceData := { Nonce := 7, Accnum := 3 }, forceRefetchInterval := 10
        refetchTimeout := 5, isFirstFetch := false, lastRefetch := 0 }
      100 (.fetchErr (.opError ('f' :: 'a' :: 'i' :: 'l' :: [])))).1.1
      = { Nonce := 0, Accnum := 0 } :=
  forceRefetch_error_returns_zero_record _ 100 _ (by decide)

/-- C6: a `ForceRefetch` issued when the elapsed time since the last refetch
is at most `forceRefetchInterval` fails immediately with an error carrying
the elapsed time and the configured interval and leaves the tracker (stored
record and last-refetch time) unchanged; issued strictly later than the
interval, on fetch success it stores the new record and strictly advances
`GetLastRefetchTime`. -/
theorem forceRefetch_throttle_and_success (n : NonceTracker) (now : Nat)
    (outcome : FetchOutcome) :
    (now - n.lastRefetch ≤ n.forceRefetchInterval →
      forceRefetch n now outcome =
        (({ Nonce := 0, Accnum := 0 },
          some (.throttled (now - n.lastRefetch) n.forceRefetchInterval)), n))
    ∧ (now - n.lastRefetch > n.forceRefetchInterval →
        ∀ r, outcome = .fetched r →
          forceRefetch n now outcome =
            ((r, none), { n with nonceData := r, lastRefetch := now })
          ∧ getLastRefetchTime (forceRefetch n now outcome).2 = now
          ∧ getLastRefetchTime n < now) := by
  constructor
  · intro hle
    unfold forceRefetch
    rw [if_neg (by omega)]
  · intro hgt r hr
    subst hr
    refine ⟨?_, ?_, ?_⟩
    · unfold forceRefetch
      rw [if_pos hgt]
      rfl
    · unfold forceRefetch
      rw [if_pos hgt]
      rfl
    · unfold getLastRefetchTime
      omega

/-- Witness for C6: a throttled call at elapsed 4 ≤ interval 10 (tracker
unchanged, error carries 4 and 10), and a successful call at elapsed 11 > 10
that stores the fetched record and advances the last-refetch time. -/
theorem forceRefetch_throttle_and_success_witness :
    (forceRefetch
        { nonceData := { Nonce := 1, Accnum := 2 }, forceRefetchInterval := 10
          refetchTimeout := 5, isFirstFetch := false, lastRefetch := 20 }
        24 (.fetched { Nonce := 9, Accnum := 2 }) =
      (({ Nonce := 0, Accnum := 0 }, some (.throttled 4 10)),
        { nonceData := { Nonce := 1, Accnum := 2 }, forceRefetchInterval := 10
          refetchTimeout := 5, isFirstFetch := false, lastRefetch := 20 }))
    ∧ (forceRefetch
        { nonceData := { Nonce := 1, Accnum := 2 }, forceRefetchInterval := 10
          refetchTimeout := 5, isFirstFetch := false, lastRefetch := 20 }
        31 (.fetched { Nonce := 9, Accnum := 2 }) =
      (({ Nonce := 9, Accnum := 2 }, none),
        { nonceData := { Nonce := 9, Accnum := 2 }, forceRefetchInterval := 10
          refetchTimeout := 5, isFirstFetch := false, lastRefetch := 31 })) :=
  ⟨(forceRefetch_throttle_and_success _ 24 _).1 (by decide),
    ((forceRefetch_throttle_and_success _ 31 _).2 (by decide) _ rfl).1⟩

/-- C3 (counterexample): `IncrementAndGet` immediately after construction
does return the zero record, but after a subsequent successful `ForceRefetch`
storing sequence `S = 5` the very next `IncrementAndGet` returns `6`, not `5`
as the claim states — the refetch does not restore the cleared
first-call flag. -/
theorem incrementAndGet_after_refetch_counterexample :
    (incrementAndGet (newNonceTracker 10 5)).1 = { Nonce := 0, Accnum := 0 }
    ∧ (forceRefetch (incrementAndGet (newNonceTracker 10 5)).2 100
        (.fetched { Nonce := 5, Accnum := 1 })).1
        = ({ Nonce := 5, Accnum := 1 }, none)
    ∧ (incrementAndGet
        (forceRefetch (incrementAndGet (newNonceTracker 10 5)).2 100
          (.fetched { Nonce := 5, Accnum := 1 })).2).1.Nonce = 6
    ∧ ¬ (incrementAndGet
        (forceRefetch (incrementAndGet (newNonceTracker 10 5)).2 100
          (.fetched { Nonce := 5, Accnum := 1 })).2).1.Nonce = 5 := by
  refine ⟨rfl, rfl, ?_, ?_⟩ <;> decide

/-- Iterating `IncrementAndGet` from a tracker whose first-call flag is
already cleared: with no `uint64` wraparound, the `k`-th call (0-based)
returns nonce `m + k + 1` and the account number unchanged. -/
theorem incrementAndGetN_no_wrap (k : Nat) :
    ∀ (t : NonceTracker) (m a : Nat), t.isFirstFetch = false →
      t.nonceData = { Nonce := m, Accnum := a } → m + k + 1 < 2 ^ 64 →
      (incrementAndGetN t k).1 = { Nonce := m + k + 1, Accnum := a }
      ∧ (incrementAndGetN t k).2.isFirstFetch = false
      ∧ (incrementAndGetN t k).2.nonceData = { Nonce := m + k + 1, Accnum := a } := by
  induction k with
  | zero =>
    intro t m a hf hd hw
    have hm : (m + 1) % 2 ^ 64 = m + 1 := Nat.mod_eq_of_lt (by omega)
    refine ⟨?_, ?_, ?_⟩ <;> simp [incrementAndGetN, incrementAndGet, hf, hd, hm] <;> omega
  | succ k ih =>
    intro t m a hf hd hw
    have hm : (m + 1) % 2 ^ 64 = m + 1 := Nat.mod_eq_of_lt (by omega)
    have step1 : (incrementAndGet t).2.isFirstFetch = false := by
      simp [incrementAndGet, hf]
    have step2 : (incrementAndGet t).2.nonceData = { Nonce := m + 1, Accnum := a } := by
      simp [incrementAndGet, hf, hd, hm]
      omega
    have := ih (incrementAndGet t).2 (m + 1) a step1 step2 (by omega)
    simpa [incrementAndGetN, Nat.add_assoc, Nat.add_comm, Nat.add_left_comm] using this

/-- C3 (amended): `IncrementAndGet` called immediately after construction
returns the zero-value record unmodified (and clears the first-call flag); if
a successful `ForceRefetch` afterwards stores sequence `S`, the subsequent
`IncrementAndGet` calls return `S+1, S+2, …` in order — not `S, S+1, …`,
since the refetch leaves the already-cleared flag alone and every later call
increments before returning. -/
theorem incrementAndGet_after_refetch_amended
    (interval timeout S A now k : Nat)
    (hnow : now > interval) (hw : S + k + 1 < 2 ^ 64) :
    (incrementAndGet (newNonceTracker interval timeout)).1
        = { Nonce := 0, Accnum := 0 }
    ∧ (forceRefetch (incrementAndGet (newNonceTracker interval timeout)).2 now
        (.fetched { Nonce := S, Accnum := A })).1 = ({ Nonce := S, Accnum := A }, none)
    ∧ (incrementAndGetN
        (forceRefetch (incrementAndGet (newNonceTracker interval timeout)).2 now
          (.fetched { Nonce := S, Accnum := A })).2 k).1
        = { Nonce := S + k + 1, Accnum := A } := by
  have h1 : (incrementAndGet (newNonceTracker interval timeout)).1
      = { Nonce := 0, Accnum := 0 } := by
    simp [incrementAndGet, newNonceTracker]
  have h2 : (incrementAndGet (newNonceTracker interval timeout)).2
      = { nonceData := { Nonce := 0, Accnum := 0 }, forceRefetchInterval := interval
          refetchTimeout := timeout, isFirstFetch := false, lastRefetch := 0 } := by
    simp [incrementAndGet, newNonceTracker]
  have h3 : forceRefetch (incrementAndGet (newNonceTracker interval timeout)).2 now
      (.fetched { Nonce := S, Accnum := A })
      = (({ Nonce := S, Accnum := A }, none),
        { nonceData := { Nonce := S, Accnum := A }, forceRefetchInterval := interval
          refetchTimeout := timeout, isFirstFetch := false, lastRefetch := now }) := by
    rw [h2]
    unfold forceRefetch
    rw [if_pos (by simpa using hnow)]
    rfl
  refine ⟨h1, by rw [h3], ?_⟩
  rw [h3]
  exact (incrementAndGetN_no_wrap k _ S A rfl rfl hw).1

/-- Witness for the amended C3: interval 10, refetch at instant 100 storing
sequence 5; the two `IncrementAndGet` calls after the refetch return 6 and
then 7. -/
theorem incrementAndGet_after_refetch_amended_witness :
    (incrementAndGet (newNonceTracker 10 5)).1 = { Nonce := 0, Accnum := 0 }
    ∧ (forceRefetch (incrementAndGet (newNonceTracker 10 5)).2 100
        (.fetched { Nonce := 5, Accnum := 1 })).1 = ({ Nonce := 5, Accnum := 1 }, none)
    ∧ (incrementAndGetN
        (forceRefetch (incrementAndGet (newNonceTracker 10 5)).2 100
          (.fetched { Nonce := 5, Accnum := 1 })).2 1).1
        = { Nonce := 7, Accnum := 1 } :=
  incrementAndGet_after_refetch_amended 10 5 5 1 100 1 (by decide) (by decide)

/-! ## Theorems: circuit breaker claims -/

/-- C4: for a breaker in the Open state, once strictly more than
`resetTimeout` has elapsed since the last failure the next `Execute` call is
admitted (the operation is invoked) and the breaker reports HalfOpen; from
that half-open state a single failed call transitions it back to Open, and
two consecutive successful calls transition it to Closed with both counters
reset. -/
theorem open_breaker_reset_halfOpen_cycle (cb : CircuitBreaker)
    (now n2 n3 n4 : Int)
    (hopen : cb.currentState = .open_)
    (helapsed : now - cb.lastFailureTime > cb.resetTimeout) :
    (allowRequest cb now).1 = true
    ∧ (allowRequest cb now).2.currentState = .halfOpen
    ∧ (∀ r, (execute cb now r).1.invoked = true)
    ∧ (∀ e, (execute (allowRequest cb now).2 n2 (some e)).2.currentState = .open_)
    ∧ ((execute (execute (allowRequest cb now).2 n3 none).2 n4 none).2.currentState
        = .closed
      ∧ (execute (execute (allowRequest cb now).2 n3 none).2 n4 none).2.failureCount = 0
      ∧ (execute (execute (allowRequest cb now).2 n3 none).2 n4 none).2.successCount
        = 0) := by
  have hallow : allowRequest cb now =
      (true, { cb with currentState := .halfOpen, failureCount := 0, successCount := 0 }) := by
    simp [allowRequest, hopen, toHalfOpen, toState, helapsed]
  refine ⟨by rw [hallow], by rw [hallow], ?_, ?_, ?_⟩
  · intro r
    simp only [execute]
    rw [hallow]
    cases r <;> rfl
  · intro e
    rw [hallow]
    simp [execute, allowRequest, onFailure, toState]
  · rw [hallow]
    simp [execute, allowRequest, onSuccess, toState]

/-- Witness for C4 at a concrete open breaker (threshold 3, reset timeout 10,
last failure at instant 0) probed at instant 11. -/
theorem open_breaker_reset_halfOpen_cycle_witness :
    (allowRequest
        { failureThreshold := 3, resetTimeout := 10, currentState := .open_
          failureCount := 0, lastFailureTime := 0, successCount := 0 } 11).1 = true
    ∧ (allowRequest
        { failureThreshold := 3, resetTimeout := 10, currentState := .open_
          failureCount := 0, lastFailureTime := 0, successCount := 0 } 11).2.currentState
        = .halfOpen
    ∧ (∀ r, (execute
        { failureThreshold := 3, resetTimeout := 10, currentState := .open_
          failureCount := 0, lastFailureTime := 0, successCount := 0 } 11 r).1.invoked
        = true)
    ∧ (∀ e, (execute (allowRequest
        { failureThreshold := 3, resetTimeout := 10, currentState := .open_
          failureCount := 0, lastFailureTime := 0, successCount := 0 } 11).2 12
        (some e)).2.currentState = .open_)
    ∧ ((execute (execute (allowRequest
        { failureThreshold := 3, resetTimeout := 10, currentState := .open_
          failureCount := 0, lastFailureTime := 0, successCount := 0 } 11).2 12 none).2
        13 none).2.currentState = .closed
      ∧ (execute (execute (allowRequest
        { failureThreshold := 3, resetTimeout := 10, currentState := .open_
          failureCount := 0, lastFailureTime := 0, successCount := 0 } 11).2 12 none).2
        13 none).2.failureCount = 0
      ∧ (execute (execute (allowRequest
        { failureThreshold := 3, resetTimeout := 10, currentState := .open_
          failureCount := 0, lastFailureTime := 0, successCount := 0 } 11).2 12 none).2
        13 none).2.successCount = 0) :=
  open_breaker_reset_halfOpen_cycle _ 11 12 12 13 rfl (by decide)

/-- A failed `Execute` on a closed breaker strictly below threshold: the
operation runs, the failure counter grows by one, the failure instant is
recorded, and the breaker stays Closed. -/
theorem execute_closed_fail_below (cb : CircuitBreaker) (now : Int) (e : GoError)
    (hc : cb.currentState = .closed)
    (hlt : cb.failureCount + 1 < cb.failureThreshold) :
    execute cb now (some e) =
      ({ returned := some e, invoked := true },
        { cb with failureCount := cb.failureCount + 1, lastFailureTime := now }) := by
  simp only [execute, allowRequest, hc]
  simp [onFailure, toState, hc]
  omega

/-- A failed `Execute` on a closed breaker at threshold: the breaker
transitions to Open with both counters reset and `lastFailureTime = now`. -/
theorem execute_closed_fail_at_threshold (cb : CircuitBreaker) (now : Int)
    (e : GoError) (hc : cb.currentState = .closed)
    (hge : cb.failureCount + 1 ≥ cb.failureThreshold) :
    execute cb now (some e) =
      ({ returned := some e, invoked := true },
        { cb with
          currentState := .open_, failureCount := 0, successCount := 0
          lastFailureTime := now }) := by
  simp only [execute, allowRequest, hc]
  simp [onFailure, toState, hc, hge]

/-- An `Execute` on an open breaker before `resetTimeout` has elapsed since
the last failure: rejected with the circuit-open error, the operation is not
invoked, and the breaker is unchanged. -/
theorem execute_open_rejected (cb : CircuitBreaker) (now : Int)
    (r : Option GoError) (hc : cb.currentState = .open_)
    (hle : now - cb.lastFailureTime ≤ cb.resetTimeout) :
    execute cb now r = ({ returned := some .circuitOpen, invoked := false }, cb) := by
  have hcond : ¬ now - cb.lastFailureTime > cb.resetTimeout := by omega
  simp [execute, allowRequest, hc, hcond]

/-- `cbNew` always yields a strictly positive failure threshold. -/
theorem cbNew_failureThreshold_pos (ft rt : Int) :
    0 < (cbNew ft rt).failureThreshold := by
  simp only [cbNew]
  split <;> omega

/-- Consecutive failures on a fresh breaker, while strictly below threshold:
the breaker stays Closed, the failure counter equals the number of failures,
and the configuration fields and success counter are untouched. -/
theorem executeSeq_closed_phase (ft rt : Int) (ts : Nat → Int)
    (errs : Nat → GoError) (k : Nat)
    (hk : (k : Int) < (cbNew ft rt).failureThreshold) :
    (executeSeq (cbNew ft rt) ts (fun j => some (errs j)) k).currentState = .closed
    ∧ (executeSeq (cbNew ft rt) ts (fun j => some (errs j)) k).failureCount = (k : Int)
    ∧ (executeSeq (cbNew ft rt) ts (fun j => some (errs j)) k).failureThreshold
        = (cbNew ft rt).failureThreshold
    ∧ (executeSeq (cbNew ft rt) ts (fun j => some (errs j)) k).resetTimeout
        = (cbNew ft rt).resetTimeout
    ∧ (executeSeq (cbNew ft rt) ts (fun j => some (errs j)) k).successCount = 0 := by
  induction k with
  | zero => exact ⟨rfl, rfl, rfl, rfl, rfl⟩
  | succ k ih =>
    have hk' : (k : Int) < (cbNew ft rt).failureThreshold := by push_cast at hk ⊢; omega
    obtain ⟨h1, h2, h3, h4, h5⟩ := ih hk'
    have hstep := execute_closed_fail_below
      (executeSeq (cbNew ft rt) ts (fun j => some (errs j)) k) (ts k) (errs k) h1
      (by rw [h2, h3]; push_cast at hk ⊢; omega)
    simp only [executeSeq, hstep]
    refine ⟨h1, ?_, h3, h4, h5⟩
    rw [h2]
    push_cast
    ring

/-- The failure that reaches the threshold: after exactly `T` consecutive
failures the fresh breaker is Open with both counters reset and the last
failure stamped at the time of the `T`-th call. -/
theorem executeSeq_opens_at_threshold (ft rt : Int) (ts : Nat → Int)
    (errs : Nat → GoError) (T : Nat)
    (hT : (cbNew ft rt).failureThreshold = (T : Int)) :
    executeSeq (cbNew ft rt) ts (fun j => some (errs j)) T
      = { cbNew ft rt with currentState := .open_, lastFailureTime := ts (T - 1) } := by
  have hpos : 0 < (cbNew ft rt).failureThreshold := cbNew_failureThreshold_pos ft rt
  obtain ⟨T', rfl⟩ : ∃ T', T = T' + 1 := by
    rcases T with _ | T'
    · exfalso; rw [hT] at hpos; omega
    · exact ⟨T', rfl⟩
  have hk : (T' : Int) < (cbNew ft rt).failureThreshold := by
    rw [hT]; push_cast; omega
  obtain ⟨h1, h2, h3, h4, h5⟩ := executeSeq_closed_phase ft rt ts errs T' hk
  have hstep := execute_closed_fail_at_threshold
    (executeSeq (cbNew ft rt) ts (fun j => some (errs j)) T') (ts T') (errs T') h1
    (by rw [h2, h3, hT]; push_cast; omega)
  simp only [executeSeq, hstep, Nat.add_sub_cancel]
  rw [h3, h4]
  rfl

/-- Once Open, further calls issued within `resetTimeout` of the recorded
last failure leave the breaker record completely unchanged. -/
theorem executeSeq_open_persists (ft rt : Int) (ts : Nat → Int)
    (errs : Nat → GoError) (T : Nat)
    (hT : (cbNew ft rt).failureThreshold = (T : Int)) (j : Nat) :
    (∀ i, T ≤ i → i < T + j → ts i - ts (T - 1) ≤ (cbNew ft rt).resetTimeout) →
    executeSeq (cbNew ft rt) ts (fun j => some (errs j)) (T + j)
      = { cbNew ft rt with currentState := .open_, lastFailureTime := ts (T - 1) } := by
  induction j with
  | zero =>
    intro _
    exact executeSeq_opens_at_threshold ft rt ts errs T hT
  | succ j ih =>
    intro hts
    have hprev := ih fun i hi hi2 => hts i hi (by omega)
    have hstep := execute_open_rejected
      { cbNew ft rt with currentState := .open_, lastFailureTime := ts (T - 1) }
      (ts (T + j)) (some (errs (T + j))) rfl
      (by simpa using hts (T + j) (by omega) (by omega))
    show (execute (executeSeq (cbNew ft rt) ts (fun j => some (errs j)) (T + j))
        (ts (T + j)) (some (errs (T + j)))).2 = _
    rw [hprev, hstep]

/-- C5: starting from a freshly constructed (Closed) breaker with failure
threshold `T`, for every `n ≥ T`, `n` consecutive failed `Execute` calls
cause exactly one transition to Open — the breaker is Closed before the
`T`-th failure and from the `T`-th call on is the one fixed Open record,
never re-transitioning — and the `(n+1)`-th call, issued before
`resetTimeout` has elapsed since the last recorded failure, is rejected with
the circuit-open error without invoking the operation. -/
theorem closed_breaker_consecutive_failures (ft rt : Int) (ts : Nat → Int)
    (errs : Nat → GoError) (T n : Nat)
    (hT : (cbNew ft rt).failureThreshold = (T : Int))
    (hn : T ≤ n)
    (hts : ∀ k, T ≤ k → k ≤ n → ts k - ts (T - 1) ≤ (cbNew ft rt).resetTimeout) :
    (∀ k, k < T →
      (executeSeq (cbNew ft rt) ts (fun j => some (errs j)) k).currentState = .closed)
    ∧ (∀ k, T ≤ k → k ≤ n + 1 →
        executeSeq (cbNew ft rt) ts (fun j => some (errs j)) k
          = { cbNew ft rt with currentState := .open_, lastFailureTime := ts (T - 1) })
    ∧ (execute (executeSeq (cbNew ft rt) ts (fun j => some (errs j)) n) (ts n)
        (some (errs n))).1 = { returned := some .circuitOpen, invoked := false } := by
  have hopenk : ∀ k, T ≤ k → k ≤ n + 1 →
      executeSeq (cbNew ft rt) ts (fun j => some (errs j)) k
        = { cbNew ft rt with currentState := .open_, lastFailureTime := ts (T - 1) } := by
    intro k hk1 hk2
    have := executeSeq_open_persists ft rt ts errs T hT (k - T)
      (fun i hi hi2 => hts i hi (by omega))
    rwa [show T + (k - T) = k by omega] at this
  refine ⟨?_, hopenk, ?_⟩
  · intro k hk
    exact (executeSeq_closed_phase ft rt ts errs k (by rw [hT]; exact_mod_cast hk)).1
  · rw [hopenk n hn (by omega),
      execute_open_rejected _ (ts n) _ rfl (by simpa using hts n hn le_rfl)]

/-- Witness for C5: threshold 2, reset timeout 100, calls at instants
0,1,2,3; after `n = 3` failures the 4th call is rejected without invoking
the operation. -/
theorem closed_breaker_consecutive_failures_witness :
    (execute (executeSeq (cbNew 2 100) (fun k => (k : Int))
        (fun _ => some (.opError ('x' :: []))) 3) ((3 : Nat) : Int)
      (some (.opError ('x' :: [])))).1
      = { returned := some .circuitOpen, invoked := false } :=
  (closed_breaker_consecutive_failures 2 100 (fun k => (k : Int))
    (fun _ => .opError ('x' :: [])) 2 3 (by decide) (by decide)
    (by intro k h1 h2; simp [cbNew]; omega)).2.2

/-! ## Theorems: retry claims -/

/-- A run of failed, retriable attempts whose `select` always resolves to the
backoff sleep advances the loop: `m` such attempts consume `m` units of fuel,
move the attempt index forward by `m`, add `m` to the invocation count, and
leave the eventual result to the rest of the loop (at some interval `iv`). -/
theorem retryLoop_sleep_advance (cfg : RetryConfig) (op : Nat → Option GoError)
    (pats : List GoStr) (sched : Nat → Branch) (m : Nat) :
    ∀ (fuel idx interval : Nat),
      (∀ j, j < m → ∃ e, op (idx + j) = some e
        ∧ isNonRetriable (some e) pats = false ∧ sched (idx + j) = .sleep) →
      ∃ iv, retryLoop cfg op pats sched (fuel + m) idx interval
        = ((retryLoop cfg op pats sched fuel (idx + m) iv).1,
           (retryLoop cfg op pats sched fuel (idx + m) iv).2 + m) := by
  induction m with
  | zero =>
    intro fuel idx interval _
    exact ⟨interval, by simp⟩
  | succ m ih =>
    intro fuel idx interval hyp
    obtain ⟨e, hop, hnr, hs⟩ := hyp 0 (Nat.succ_pos m)
    simp only [Nat.add_zero] at hop hnr hs
    obtain ⟨iv, hIH⟩ := ih fuel (idx + 1) (min (interval + cfg.IntervalIncrement) cfg.MaxInterval)
      (fun j hj => by
        have := hyp (j + 1) (by omega)
        rwa [show idx + (j + 1) = idx + 1 + j by omega] at this)
    refine ⟨iv, ?_⟩
    rw [show fuel + (m + 1) = (fuel + m) + 1 by omega]
    simp only [retryLoop, hop, hnr, Bool.false_eq_true, if_false, hs]
    rw [hIH, show idx + 1 + m = idx + (m + 1) by omega]
    simp [Nat.add_assoc]

/-- C7: for a perpetually failing operation whose errors are all retriable,
whenever `RetryWithBackoff` gives up because the `MaxDuration` timer channel
fires (after `i` backoff sleeps) it returns
`fmt.Errorf("operation timed out after %v: %w", cfg.MaxDuration, err)` — the
most recent operation error `err` wrapped together with the duration after
which the run timed out — and whenever it gives up because the context is
cancelled it returns `ctx.Err()` verbatim, not wrapped. -/
theorem retryWithBackoff_giveup_errors (cfg : RetryConfig)
    (op : Nat → Option GoError) (errs : Nat → GoError) (pats : List GoStr)
    (sched : Nat → Branch) (i fuel : Nat)
    (hop : ∀ k, op k = some (errs k))
    (hnr : ∀ k, isNonRetriable (some (errs k)) pats = false)
    (hsleep : ∀ j, j < i → sched j = .sleep) :
    (sched i = .timerC →
      (retryWithBackoff (fuel + 1 + i) cfg op pats sched).1
        = some (some (.timedOutAfter cfg.MaxDuration (errs i))))
    ∧ (sched i = .ctxDone →
      (retryWithBackoff (fuel + 1 + i) cfg op pats sched).1
        = some (some .contextCanceled)) := by
  obtain ⟨iv, heq⟩ := retryLoop_sleep_advance cfg op pats sched i (fuel + 1) 0
    cfg.InitialInterval
    (fun j hj => ⟨errs j, by simpa using hop j, by simpa using hnr j, by
      simpa using hsleep j hj⟩)
  rw [show (0 : Nat) + i = i by omega] at heq
  constructor
  · intro htimer
    rw [retryWithBackoff, heq]
    simp only [retryLoop, hop i, hnr i, Bool.false_eq_true, if_false, htimer]
  · intro hdone
    rw [retryWithBackoff, heq]
    simp only [retryLoop, hop i, hnr i, Bool.false_eq_true, if_false, hdone]

/-- Witness for C7: an operation failing every attempt with error `x`,
patterns empty; with one sleep then the timer firing the result wraps the
last error with `MaxDuration = 5`; with one sleep then cancellation the
result is the bare context-cancelled error. -/
theorem retryWithBackoff_giveup_errors_witness :
    (retryWithBackoff 2
        { MaxDuration := 5, InitialInterval := 1, MaxInterval := 3, IntervalIncrement := 1 }
        (fun _ => some (.opError ('x' :: []))) []
        (fun k => if k = 0 then .sleep else .timerC)).1
      = some (some (.timedOutAfter 5 (.opError ('x' :: []))))
    ∧ (retryWithBackoff 2
        { MaxDuration := 5, InitialInterval := 1, MaxInterval := 3, IntervalIncrement := 1 }
        (fun _ => some (.opError ('x' :: []))) []
        (fun k => if k = 0 then .sleep else .ctxDone)).1
      = some (some .contextCanceled) :=
  ⟨(retryWithBackoff_giveup_errors
      { MaxDuration := 5, InitialInterval := 1, MaxInterval := 3, IntervalIncrement := 1 }
      (fun _ => some (.opError ('x' :: []))) (fun _ => .opError ('x' :: [])) []
      (fun k => if k = 0 then .sleep else .timerC) 1 0
      (fun _ => rfl) (fun _ => rfl)
      (fun j hj => by interval_cases j; rfl)).1 rfl,
    (retryWithBackoff_giveup_errors
      { MaxDuration := 5, InitialInterval := 1, MaxInterval := 3, IntervalIncrement := 1 }
      (fun _ => some (.opError ('x' :: []))) (fun _ => .opError ('x' :: [])) []
      (fun k => if k = 0 then .sleep else .ctxDone) 1 0
      (fun _ => rfl) (fun _ => rfl)
      (fun j hj => by interval_cases j; rfl)).2 rfl⟩

/-- C8: an operation whose first error contains some supplied pattern as a
case-insensitive substring of the stringified error is called exactly once
and `RetryWithBackoff` returns that error unchanged (no wrapping) — for any
fuel, configuration and schedule; and with an empty pattern list
`isNonRetriable` holds of no error, so every error is treated as
retriable. -/
theorem retryWithBackoff_nonretriable_once (cfg : RetryConfig)
    (op : Nat → Option GoError) (pats : List GoStr) (sched : Nat → Branch)
    (fuel : Nat) (err : GoError) (p : GoStr)
    (hp : p ∈ pats)
    (hmatch : goContains (goToLower err.errorString) (goToLower p) = true)
    (hop : op 0 = some err) :
    retryWithBackoff (fuel + 1) cfg op pats sched = (some (some err), 1)
    ∧ ∀ e, isNonRetriable (some e) [] = false := by
  have hlen : ¬ pats.length = 0 := by
    cases pats with
    | nil => cases hp
    | cons q qs => simp
  have hnr : isNonRetriable (some err) pats = true := by
    simp only [isNonRetriable, hlen, if_false]
    exact List.any_eq_true.mpr ⟨p, hp, hmatch⟩
  constructor
  · rw [retryWithBackoff]
    simp only [retryLoop, hop, hnr, if_true]
  · intro e
    simp [isNonRetriable]

/-- Witness for C8: the error string `Rate Limit hit` contains the pattern
`rate limit` case-insensitively, so the operation runs once and its error
comes back unchanged. -/
theorem retryWithBackoff_nonretriable_once_witness :
    retryWithBackoff 4
        { MaxDuration := 5, InitialInterval := 1, MaxInterval := 3, IntervalIncrement := 1 }
        (fun _ => some (.opError ("Rate Limit hit").toList))
        [("rate limit").toList] (fun _ => .sleep)
      = (some (some (.opError ("Rate Limit hit").toList)), 1)
    ∧ ∀ e, isNonRetriable (some e) [] = false :=
  retryWithBackoff_nonretriable_once
    { MaxDuration := 5, InitialInterval := 1, MaxInterval := 3, IntervalIncrement := 1 }
    (fun _ => some (.opError ("Rate Limit hit").toList))
    [("rate limit").toList] (fun _ => .sleep) 3
    (.opError ("Rate Limit hit").toList) (("rate limit").toList)
    (List.mem_singleton.mpr rfl) (by decide) rfl

/-- C10: `RetryWithBackoff` invokes the operation at least once for every
configuration (including `MaxDuration = 0`) and every schedule (including one
whose context is already cancelled), and if the first attempt returns no
error the whole call returns `nil` after exactly one invocation — the
deadline and cancellation channels are only consulted after a failed
attempt. -/
theorem retryWithBackoff_first_attempt (cfg : RetryConfig)
    (op : Nat → Option GoError) (pats : List GoStr) (sched : Nat → Branch)
    (fuel : Nat) :
    1 ≤ (retryWithBackoff (fuel + 1) cfg op pats sched).2
    ∧ (op 0 = none → retryWithBackoff (fuel + 1) cfg op pats sched = (some none, 1)) := by
  constructor
  · rw [retryWithBackoff]
    cases hop : op 0 with
    | none => simp [retryLoop, hop]
    | some e =>
      simp only [retryLoop, hop]
      split
      · simp
      · cases hs : sched 0 <;> simp
  · intro hop
    rw [retryWithBackoff]
    simp only [retryLoop, hop]

/-- Witness for C10: zero `MaxDuration`, an always-cancelling schedule, a
first attempt that succeeds: the operation still runs (once) and the call
returns `nil`. -/
theorem retryWithBackoff_first_attempt_witness :
    retryWithBackoff 1
        { MaxDuration := 0, InitialInterval := 0, MaxInterval := 0, IntervalIncrement := 0 }
        (fun _ => none) [] (fun _ => .ctxDone)
      = (some none, 1) :=
  (retryWithBackoff_first_attempt
    { MaxDuration := 0, InitialInterval := 0, MaxInterval := 0, IntervalIncrement := 0 }
    (fun _ => none) [] (fun _ => .ctxDone) 0).2 rfl

/-! ## Theorems: async request processor claims -/

/-- C1: for a processor constructed with a nil `retryConfig`
(`NoRetryConfig`), processing any submitted item does not surface failures in
the item's `Response` — it panics: `process` reads
`w.retryConfig.MaxDuration` to build the per-request context before the
processing function is ever invoked, and that read dereferences the nil
pointer.  The claimed "calls the processing function exactly once and never
crashes" is therefore false of the code as written, while the constructor's
own documentation ("If retryConfig is nil, no retry logic will be used") and
the exported `NoRetryConfig` value promise exactly the claimed behaviour. -/
theorem nil_retry_policy_process_panics {T R : Type} (w : AsyncWorker T R)
    (req : Request T) (h : w.retryConfig = none) :
    processRequestNoRetry w req
      = .panicked ("runtime error: invalid memory address or nil pointer dereference").toList := by
  simp [processRequestNoRetry, workerProcess, goDeref, h]

/-- Witness for C1 at a concrete worker with nil retry configuration and a
concrete request. -/
theorem nil_retry_policy_process_panics_witness :
    processRequestNoRetry
        ({ retryConfig := none, processFn := fun _ => (0, none) } : AsyncWorker Nat Nat)
        { ID := ('a' :: []), Data := 0 }
      = .panicked ("runtime error: invalid memory address or nil pointer dereference").toList :=
  nil_retry_policy_process_panics _ _ rfl

/-- Submitting requests to a live processor with enough queue room: every
submission is accepted and the input channel receives the requests in
order. -/
theorem submitAll_accepts_within_capacity {T R : Type} (reqs : List (Request T)) :
    ∀ (st : ProcState T R), st.ctxDone = false →
      st.requestChan.length + reqs.length ≤ st.bufferSize →
      submitAll st reqs
        = (List.replicate reqs.length true,
          { st with requestChan := st.requestChan ++ reqs }) := by
  induction reqs with
  | nil =>
    intro st _ _
    simp [submitAll]
  | cons req rest ih =>
    intro st hlive hcap
    obtain ⟨rc, resc, cap, cd, log⟩ := st
    simp only at hlive hcap
    subst hlive
    have hroom : rc.length < cap := by simp at hcap ⊢; omega
    have hsub : submit (⟨rc, resc, cap, false, log⟩ : ProcState T R) req
        = (true, ⟨rc ++ [req], resc, cap, false, log⟩) := by
      simp [submit, hroom]
    have := ih (⟨rc ++ [req], resc, cap, false, log⟩ : ProcState T R) rfl
      (by simp at hcap ⊢; omega)
    simp only [submitAll, hsub, this, List.append_assoc, List.singleton_append,
      List.replicate_succ]
    simp [List.replicate_succ]

/-- Evaluating `processRequestStep` on a cancelled-context state. -/
theorem processRequestStep_ctxDone {T R : Type} (pf : Request T → R × Option GoError)
    (c : Bool) (req : Request T) (rc : List (Request T)) (resc : List (Response R))
    (cap : Nat) (log : List GoStr) (hroom : resc.length < cap) :
    processRequestStep pf c req (⟨rc, resc, cap, true, log⟩ : ProcState T R)
      = ⟨rc,
        resc ++ (if c then
          [{ RequestID := req.ID, Data := (pf req).1, Error := (pf req).2 }] else []),
        cap, true, log ++ [req.ID]⟩ := by
  cases c with
  | false => simp [processRequestStep]
  | true => simp [processRequestStep, hroom]

/-- One unfolding of `drainLoop` on an empty input channel: the `default`
branch returns. -/
theorem drainLoop_nil {T R : Type} (pf : Request T → R × Option GoError)
    (choices : List Bool) (resc : List (Response R)) (cap : Nat) (cd : Bool)
    (log : List GoStr) :
    drainLoop pf choices (⟨[], resc, cap, cd, log⟩ : ProcState T R)
      = ⟨[], resc, cap, cd, log⟩ := by
  rw [drainLoop]

/-- One unfolding of `drainLoop` on a non-empty input channel: dequeue the
head, run `processRequest` on it, continue. -/
theorem drainLoop_cons {T R : Type} (pf : Request T → R × Option GoError)
    (choices : List Bool) (req : Request T) (rest : List (Request T))
    (resc : List (Response R)) (cap : Nat) (cd : Bool) (log : List GoStr) :
    drainLoop pf choices (⟨req :: rest, resc, cap, cd, log⟩ : ProcState T R)
      = drainLoop pf choices.tail
          (processRequestStep pf (choices.headD true) req
            (⟨rest, resc, cap, cd, log⟩ : ProcState T R)) := by
  rw [drainLoop]

/-- The shutdown drain: with the context cancelled and enough room in the
output buffer for every pending item, the drain empties the input channel,
logs every pending request in order, and appends to the output channel
exactly the responses of the items whose shutdown `select` chose the send
branch. -/
theorem drainLoop_spec {T R : Type} (pf : Request T → R × Option GoError)
    (reqs : List (Request T)) :
    ∀ (choices : List Bool) (resc : List (Response R)) (cap : Nat) (log : List GoStr),
      resc.length + reqs.length ≤ cap →
      drainLoop pf choices (⟨reqs, resc, cap, true, log⟩ : ProcState T R)
        = ⟨[], resc ++ respForChosen pf reqs choices, cap, true,
            log ++ reqs.map (fun r => r.ID)⟩ := by
  induction reqs with
  | nil =>
    intro choices resc cap log _
    rw [drainLoop_nil]
    simp [respForChosen]
  | cons req rest ih =>
    intro choices resc cap log hcap
    have hroom : resc.length < cap := by simp at hcap; omega
    have hcap' : resc.length + 1 + rest.length ≤ cap := by simp at hcap ⊢; omega
    rw [drainLoop_cons]
    cases choices with
    | nil =>
      rw [show (([] : List Bool).headD true) = true from rfl]
      rw [show ([] : List Bool).tail = [] from rfl]
      rw [processRequestStep_ctxDone pf true req rest resc cap log hroom]
      rw [if_pos rfl]
      rw [ih []
        (resc ++ [({ RequestID := req.ID, Data := (pf req).1, Error := (pf req).2 } :
          Response R)])
        cap (log ++ [req.ID]) (by simpa using hcap')]
      simp [respForChosen]
    | cons c cs =>
      rw [show ((c :: cs).headD true) = c from rfl,
        show ((c :: cs).tail) = cs from rfl]
      rw [processRequestStep_ctxDone pf c req rest resc cap log hroom]
      cases c with
      | false =>
        rw [if_neg (by simp)]
        rw [show resc ++ ([] : List (Response R)) = resc from by simp]
        rw [ih cs resc cap (log ++ [req.ID]) (by omega)]
        simp [respForChosen]
      | true =>
        rw [if_pos rfl]
        rw [ih cs
          (resc ++ [({ RequestID := req.ID, Data := (pf req).1, Error := (pf req).2 } :
            Response R)])
          cap (log ++ [req.ID]) (by simpa using hcap')]
        simp [respForChosen]

/-- C2 (counterexample): capacity 1, one accepted item, stop called; in the
schedule where the shutdown `select` inside `processRequest` resolves to the
`<-w.ctx.Done()` branch, the item is processed but its `Response` is
discarded — the output queue is empty, not of length 1 as the claim
requires. -/
theorem stop_drops_result_counterexample :
    (submitAll (newProcState Nat Nat 1) ({ ID := ('a' :: []), Data := 0 } :: [])).1
      = (true :: [])
    ∧ (stopAndDrain (fun _ => (0, none)) (false :: [])
        (submitAll (newProcState Nat Nat 1)
          ({ ID := ('a' :: []), Data := 0 } :: [])).2).processedLog
      = (('a' :: []) :: [])
    ∧ (stopAndDrain (fun _ => (0, none)) (false :: [])
        (submitAll (newProcState Nat Nat 1)
          ({ ID := ('a' :: []), Data := 0 } :: [])).2).responseChan = []
    ∧ ¬ (stopAndDrain (fun _ => (0, none)) (false :: [])
        (submitAll (newProcState Nat Nat 1)
          ({ ID := ('a' :: []), Data := 0 } :: [])).2).responseChan.length = 1 := by
  have hsub : submitAll (newProcState Nat Nat 1)
      ({ ID := ('a' :: []), Data := 0 } :: [])
      = ((true :: []),
        ⟨({ ID := ('a' :: []), Data := 0 } :: []), [], 1, false, []⟩) := by
    simp [submitAll, submit, newProcState]
  have hdrain : stopAndDrain (fun _ => ((0 : Nat), (none : Option GoError)))
      (false :: [])
      (⟨({ ID := ('a' :: []), Data := 0 } :: []), [], 1, false, []⟩ : ProcState Nat Nat)
      = ⟨[], [], 1, true, (('a' :: []) :: [])⟩ := by
    unfold stopAndDrain
    rw [show ({ (⟨({ ID := ('a' :: []), Data := 0 } :: []), [], 1, false, []⟩ :
        ProcState Nat Nat) with ctxDone := true })
      = (⟨({ ID := ('a' :: []), Data := 0 } :: []), [], 1, true, []⟩ : ProcState Nat Nat)
      from rfl]
    rw [drainLoop_spec (fun _ => ((0 : Nat), (none : Option GoError)))
      ({ ID := ('a' :: []), Data := 0 } :: []) (false :: []) [] 1 [] (by simp)]
    simp [respForChosen]
  rw [hsub]
  simp only [hdrain]
  simp

/-- C2 (amended): if `N ≤ capacity` items are submitted to a fresh processor
(all accepted) and stop is then called, every one of the `N` items is
processed — exactly once each, in submission order, witnessed by the
processing log — before the worker exits; but an item's `WorkResult` reaches
the output queue only if the shutdown `select` inside `processRequest`
resolves in favour of the send branch for that item: the results of items
whose `select` resolves to `<-w.ctx.Done()` are discarded, so the output
queue holds exactly the results of the send-chosen items, possibly fewer
than `N`. -/
theorem stop_processes_all_delivers_chosen {T R : Type} (cap : Nat)
    (reqs : List (Request T)) (choices : List Bool)
    (pf : Request T → R × Option GoError)
    (hcap : reqs.length ≤ cap) :
    (submitAll (newProcState T R cap) reqs).1 = List.replicate reqs.length true
    ∧ stopAndDrain pf choices (submitAll (newProcState T R cap) reqs).2
        = ⟨[], respForChosen pf reqs choices, cap, true, reqs.map (fun r => r.ID)⟩ := by
  have hsub := submitAll_accepts_within_capacity reqs (newProcState T R cap) rfl
    (by simp [newProcState]; omega)
  have h2 : (submitAll (newProcState T R cap) reqs).2
      = (⟨reqs, [], cap, false, []⟩ : ProcState T R) := by
    rw [hsub]
    simp [newProcState]
  refine ⟨by rw [hsub], ?_⟩
  rw [stopAndDrain.eq_def, h2]
  show drainLoop pf choices (⟨reqs, [], cap, true, []⟩ : ProcState T R) = _
  rw [drainLoop_spec pf reqs choices [] cap [] (by simpa using hcap)]
  simp

/-- Witness for the amended C2: capacity 2, items `a` then `b`, stop with the
send branch chosen for `a` and the done branch for `b`: both are processed in
order, and the output queue holds exactly the result of `a`. -/
theorem stop_processes_all_delivers_chosen_witness :
    (submitAll (newProcState Nat Nat 2)
        ({ ID := ('a' :: []), Data := 0 } :: { ID := ('b' :: []), Data := 1 } :: [])).1
      = List.replicate 2 true
    ∧ stopAndDrain (fun r => (r.Data, none)) (true :: false :: [])
        (submitAll (newProcState Nat Nat 2)
          ({ ID := ('a' :: []), Data := 0 } :: { ID := ('b' :: []), Data := 1 } :: [])).2
      = ⟨[], ({ RequestID := ('a' :: []), Data := 0, Error := none } :: []), 2, true,
          (('a' :: []) :: ('b' :: []) :: [])⟩ := by
  have := stop_processes_all_delivers_chosen 2
    ({ ID := ('a' :: []), Data := 0 } :: { ID := ('b' :: []), Data := 1 } :: [])
    (true :: false :: []) (fun r => (r.Data, none)) (by decide)
  refine ⟨this.1, ?_⟩
  rw [this.2]
  simp [respForChosen]

end Osmoutil
